import Mathlib

/-!
# hellman.c: the `system-cleanup` command-line tool

A shallow embedding of `src/hellman.c`.  The program talks to the outside
world only through `geteuid`, `popen`/`fgets`/`pclose`, `system` and the two
output streams.  The outside world is an `Env` whose answers may depend on
everything that happened before; what the program does is recorded in a
`Trace`.  Bytes of C strings are modelled by `Char`.
-/

namespace Hellman

/-- The three cleanup functions of `hellman.c`. -/
inductive Action
  | orphans
  | cache
  | journal
  deriving DecidableEq

/-- What the program does, one event per library call.  `call` and `ret`
record that `main` entered one of the three cleanup functions and the value
the function returned. -/
inductive Event
  | stdout (s : String)
  | stderr (s : String)
  | perror (s : String)
  | popen (cmd : String) (started : Bool)
  | pclose (status : Int)
  | system (cmd : String) (status : Int)
  | call (a : Action)
  | ret (a : Action) (r : Int)
  deriving DecidableEq

abbrev Trace := List Event

/-- The outside world.  `popen t cmd` is `none` when `popen` returns `NULL`,
else the bytes the child writes to the pipe and the status `pclose` reports;
`system t cmd` is the value `system` returns.  Both see the trace so far. -/
structure Env where
  geteuid : Nat
  popen : Trace → String → Option (String × Int)
  system : Trace → String → Int

/-- The bytes `fgets` stores when it may store at most `k` of them: it stops
after a newline, at end of file, or when `k` bytes are stored.  Returns the
bytes stored and the rest of the stream. -/
def readLine : Nat → List Char → List Char × List Char
  | 0, s => ([], s)
  | _ + 1, [] => ([], [])
  | k + 1, c :: s =>
    if c = '\n' then ([c], s)
    else (c :: (readLine k s).1, (readLine k s).2)

/-- The call `fgets(line, size, cmd)`: `none` is `NULL` (end of file and no
byte read). -/
def fgets (size : Nat) (stream : List Char) : Option (List Char × List Char) :=
  if stream = [] then none else some (readLine (size - 1) stream)

/-- The call `strcat(dest, src)` on the contents of the two buffers: `src`
ends at its first NUL byte. -/
def strcat (dest src : List Char) : List Char :=
  dest ++ src.takeWhile (fun c => c ≠ Char.ofNat 0)

/-- The call `snprintf(buf, size, ...)`, given the full formatted text: at
most `size - 1` bytes are stored. -/
def snprintf (size : Nat) (text : List Char) : List Char :=
  text.take (size - 1)

/-- The loop `while (fgets(line, sizeof(line), cmd)) strcat(packages, line);`
with `char packages[4096]` and `char line[256]`.  `none` when `strcat` writes
past the end of `packages` (undefined behaviour), or when the fuel runs out
(it never does when `stream.length ≤ fuel`). -/
def read_loop : Nat → List Char → List Char → Option (List Char)
  | fuel, stream, packages =>
    match fgets 256 stream with
    | none => some packages
    | some (line, rest) =>
      match fuel with
      | 0 => none
      | fuel + 1 =>
        if (strcat packages line).length + 1 ≤ 4096 then
          read_loop fuel rest (strcat packages line)
        else none

/-- The function `cleanup_orphans` (lines 14-49).  `none` is undefined
behaviour. -/
def cleanup_orphans (env : Env) (t : Trace) : Option (Int × Trace) :=
  let t1 := t ++ [.stdout "Cleaning up orphaned packages...\n"]
  match env.popen t1 "pacman -Qtdq" with
  | none =>
    some (1, t1 ++ [.popen "pacman -Qtdq" false,
                    .perror "Failed to execute pacman -Qtdq"])
  | some (output, st) =>
    match read_loop output.data.length output.data [] with
    | none => none
    | some packages =>
      let t2 := t1 ++ [.popen "pacman -Qtdq" true, .pclose st]
      if packages.length > 0 then
        let command := String.mk (snprintf 4096
          ("sudo pacman -Rns ".data ++ packages ++ " --noconfirm".data))
        let status := env.system t2 command
        if status ≠ 0 then
          some (1, t2 ++ [.system command status,
                          .stderr "Failed to remove orphaned packages\n"])
        else
          some (0, t2 ++ [.system command status,
                          .stdout "Orphaned packages removed successfully\n"])
      else
        some (0, t2 ++ [.stdout "No orphaned packages found\n"])

/-- The function `cleanup_package_cache` (lines 52-61). -/
def cleanup_package_cache (env : Env) (t : Trace) : Option (Int × Trace) :=
  let t1 := t ++ [.stdout "Cleaning package cache...\n"]
  let status := env.system t1 "sudo paccache -rk1"
  if status ≠ 0 then
    some (1, t1 ++ [.system "sudo paccache -rk1" status,
                    .stderr "Failed to clean package cache\n"])
  else
    some (0, t1 ++ [.system "sudo paccache -rk1" status,
                    .stdout "Package cache cleaned successfully\n"])

/-- The function `cleanup_journal` (lines 64-73). -/
def cleanup_journal (env : Env) (t : Trace) : Option (Int × Trace) :=
  let t1 := t ++ [.stdout "Cleaning system journal...\n"]
  let status := env.system t1 "sudo journalctl --vacuum-size=100M"
  if status ≠ 0 then
    some (1, t1 ++ [.system "sudo journalctl --vacuum-size=100M" status,
                    .stderr "Failed to clean system journal\n"])
  else
    some (0, t1 ++ [.system "sudo journalctl --vacuum-size=100M" status,
                    .stdout "System journal cleaned successfully\n"])

/-- The function `print_usage` (lines 75-83). -/
def print_usage (t : Trace) : Trace :=
  t ++ [.stdout "Usage: system-cleanup [OPTION]\n",
        .stdout "Options:\n",
        .stdout "  --clean         Remove orphaned packages\n",
        .stdout "  --cache         Clean package cache\n",
        .stdout "  --journal       Clean system journal\n",
        .stdout "  --all          Perform all cleanup operations\n",
        .stdout "  --help         Display this help message\n"]

/-- A call from `main` to the cleanup function `a` whose body is `body`. -/
def invoke (a : Action) (body : Trace → Option (Int × Trace)) (t : Trace) :
    Option (Int × Trace) :=
  match body (t ++ [.call a]) with
  | none => none
  | some (r, t1) => some (r, t1 ++ [.ret a r])

/-- The statement `if (f() != 0) return 1;` followed by `k`, where `res` is
what the call `f()` did. -/
def orReturn1 (res : Option (Int × Trace)) (k : Trace → Option (Int × Trace)) :
    Option (Int × Trace) :=
  match res with
  | none => none
  | some (r, t1) => if r ≠ 0 then some (1, t1) else k t1

/-- The loop `for (int i = 1; i < argc; i++)` of `main` (lines 99-123) over
the arguments still to be processed, followed by the final `return 0`. -/
def main_loop (env : Env) : List String → Trace → Option (Int × Trace)
  | [], t => some (0, t)
  | arg :: rest, t =>
    if arg = "--clean" then
      orReturn1 (invoke .orphans (cleanup_orphans env) t) (main_loop env rest)
    else if arg = "--cache" then
      orReturn1 (invoke .cache (cleanup_package_cache env) t) (main_loop env rest)
    else if arg = "--journal" then
      orReturn1 (invoke .journal (cleanup_journal env) t) (main_loop env rest)
    else if arg = "--all" then
      orReturn1 (invoke .orphans (cleanup_orphans env) t) fun t1 =>
      orReturn1 (invoke .cache (cleanup_package_cache env) t1) fun t2 =>
      orReturn1 (invoke .journal (cleanup_journal env) t2) (main_loop env rest)
    else if arg = "--help" then
      some (0, print_usage t)
    else
      some (1, print_usage (t ++ [.stderr ("Unknown option: " ++ arg ++ "\n")]))

/-- The function `main` (lines 85-126): `argv` is the whole argument vector,
`argv[0]` included, and `argc` is its length.  The result is the exit status
and the trace of the run; `none` is undefined behaviour. -/
def main (env : Env) (argv : List String) : Option (Int × Trace) :=
  if env.geteuid ≠ 0 then
    some (1, [.stderr "This program must be run as root\n"])
  else if argv.length < 2 then
    some (1, print_usage [])
  else
    main_loop env (argv.drop 1) []

/-! ## Observations on traces -/

/-- The cleanup functions `main` called, in order. -/
def calls (t : Trace) : List Action :=
  t.filterMap fun e => match e with
    | .call a => some a
    | _ => none

/-- The cleanup functions that returned to `main`, with their return values. -/
def rets (t : Trace) : List (Action × Int) :=
  t.filterMap fun e => match e with
    | .ret a r => some (a, r)
    | _ => none

/-- The command lines handed to `popen` or `system`, in order. -/
def commands (t : Trace) : List String :=
  t.filterMap fun e => match e with
    | .popen cmd _ => some cmd
    | .system cmd _ => some cmd
    | _ => none

/-- The calls and returns of cleanup functions in the trace, in order. -/
def schedule (t : Trace) : Trace :=
  t.filter fun e => match e with
    | .call _ => true
    | .ret _ _ => true
    | _ => false

/-- An external tool reported failure to the program: `popen` returned
`NULL`, or `system` returned a non-zero value. -/
def Event.toolFailed : Event → Bool
  | .popen _ started => !started
  | .system _ status => decide (status ≠ 0)
  | _ => false

/-- The four flags that run cleanup functions. -/
def isActionFlag (arg : String) : Prop :=
  arg = "--clean" ∨ arg = "--cache" ∨ arg = "--journal" ∨ arg = "--all"

instance (arg : String) : Decidable (isActionFlag arg) := by
  unfold isActionFlag; infer_instance

/-- The strings `main` recognises. -/
def isKnownFlag (arg : String) : Prop :=
  isActionFlag arg ∨ arg = "--help"

instance (arg : String) : Decidable (isKnownFlag arg) := by
  unfold isKnownFlag; infer_instance

/-- The cleanup functions a flag stands for, in the order of the flag table of
the specification. -/
def flagActions (arg : String) : List Action :=
  if arg = "--clean" then [.orphans]
  else if arg = "--cache" then [.cache]
  else if arg = "--journal" then [.journal]
  else if arg = "--all" then [.orphans, .cache, .journal]
  else []

/-- An environment that is elevated or not, whose orphan query writes `out`
and ends with status `qst`, and whose `system` always returns `st`. -/
def constEnv (uid : Nat) (out : String) (qst st : Int) : Env :=
  { geteuid := uid, popen := fun _ _ => some (out, qst), system := fun _ _ => st }

/-- An orphan query output of 4067 bytes: 83 package names of 48 bytes, each
followed by a newline. -/
def orphanNames : List Char :=
  (List.replicate 83 (List.replicate 48 'a' ++ ['\n'])).flatten

/-- No orphan query of the environment writes 4096 bytes or more. -/
def Env.bounded (env : Env) : Prop :=
  ∀ t cmd out st, env.popen t cmd = some (out, st) → out.data.length < 4096

/-! ## The runs of `main` -/

/-- Events of the body of a cleanup function: none is a call or a return of a
cleanup function. -/
def Quiet (evs : Trace) : Prop := calls evs = [] ∧ rets evs = []

/-- No external tool reported failure in `evs`. -/
def NoFail (evs : Trace) : Prop := ∀ e ∈ evs, e.toolFailed = false

/-- What one of the three cleanup functions adds to the trace `t` when it
returns `r` with trace `t1`: events `evs` without a call or a return of a
cleanup function; `r` is 0 or 1, and it is 0 only when no tool failed. -/
def BodyOK (t : Trace) (r : Int) (t1 : Trace) : Prop :=
  ∃ evs, t1 = t ++ evs ∧ Quiet evs ∧ (r = 0 ∨ r = 1) ∧ (r = 0 → NoFail evs)

/-- The events of calling the functions `as` one after the other when each of
them returns 0. -/
inductive OkRun : List Action → Trace → Prop
  | nil : OkRun [] []
  | cons (a : Action) {as : List Action} {b evs : Trace} :
      Quiet b → NoFail b → OkRun as evs →
      OkRun (a :: as) (Event.call a :: b ++ [Event.ret a 0] ++ evs)

/-- The events of calling the functions `as` one after the other when one of
them returns 1: the functions before it returned 0 and nothing follows its
return. -/
def FailRun (as : List Action) (evs : Trace) : Prop :=
  ∃ done a more evs0 b, as = done ++ a :: more ∧ OkRun done evs0 ∧ Quiet b ∧
    evs = evs0 ++ (Event.call a :: b ++ [Event.ret a 1])

/-- The runs of the argument loop: the arguments, the value `main` returns and
the events of the loop. -/
inductive Run : List String → Int → Trace → Prop
  | done : Run [] 0 []
  | help (rest : List String) : Run ("--help" :: rest) 0 (print_usage [])
  | unknown (arg : String) (rest : List String) : ¬ isKnownFlag arg →
      Run (arg :: rest) 1 (print_usage [Event.stderr ("Unknown option: " ++ arg ++ "\n")])
  | fail (arg : String) (rest : List String) (evs : Trace) : isActionFlag arg →
      FailRun (flagActions arg) evs → Run (arg :: rest) 1 evs
  | ok (arg : String) (rest : List String) (evs evs1 : Trace) (s : Int) :
      isActionFlag arg → OkRun (flagActions arg) evs → Run rest s evs1 →
      Run (arg :: rest) s (evs ++ evs1)

/-! ## Lemmas on the observations -/

theorem calls_append (t u : Trace) : calls (t ++ u) = calls t ++ calls u := by
  simp [calls, List.filterMap_append]

theorem Quiet.ret_not_mem {evs : Trace} (h : Quiet evs) (a : Action) (r : Int) :
    Event.ret a r ∉ evs := by
  intro hm
  have : (a, r) ∈ rets evs := by
    unfold rets
    exact List.mem_filterMap.mpr ⟨_, hm, rfl⟩
  rw [h.2] at this
  exact absurd this (by simp)

theorem bodyOK_intro (t evs : Trace) (r : Int) (hq : Quiet evs)
    (h01 : r = 0 ∨ r = 1) (hf : r = 0 → NoFail evs) : BodyOK t r (t ++ evs) :=
  ⟨evs, rfl, hq, h01, hf⟩

theorem cleanup_orphans_ok (env : Env) (t : Trace) (r : Int) (t1 : Trace)
    (h : cleanup_orphans env t = some (r, t1)) : BodyOK t r t1 := by
  unfold cleanup_orphans at h
  simp only at h
  split at h
  · simp only [Option.some.injEq, Prod.mk.injEq, List.append_assoc] at h
    obtain ⟨rfl, rfl⟩ := h
    exact bodyOK_intro _ _ _ ⟨rfl, rfl⟩ (Or.inr rfl) (by simp)
  · split at h
    · exact absurd h (by simp)
    · split at h
      · split at h
        · simp only [Option.some.injEq, Prod.mk.injEq, List.append_assoc] at h
          obtain ⟨rfl, rfl⟩ := h
          exact bodyOK_intro _ _ _ ⟨rfl, rfl⟩ (Or.inr rfl) (by simp)
        · rename_i hst
          simp only [Option.some.injEq, Prod.mk.injEq, List.append_assoc] at h
          obtain ⟨rfl, rfl⟩ := h
          refine bodyOK_intro _ _ _ ⟨rfl, rfl⟩ (Or.inl rfl) (fun _ => ?_)
          intro e he
          simp only [List.cons_append, List.nil_append, List.mem_cons,
            List.mem_singleton, List.not_mem_nil, or_false] at he
          rcases he with rfl | rfl | rfl | rfl | rfl <;>
            simp_all [Event.toolFailed]
      · simp only [Option.some.injEq, Prod.mk.injEq, List.append_assoc] at h
        obtain ⟨rfl, rfl⟩ := h
        refine bodyOK_intro _ _ _ ⟨rfl, rfl⟩ (Or.inl rfl) (fun _ => ?_)
        intro e he
        simp only [List.cons_append, List.nil_append, List.mem_cons,
          List.mem_singleton, List.not_mem_nil, or_false] at he
        rcases he with rfl | rfl | rfl | rfl <;> simp [Event.toolFailed]

theorem cleanup_package_cache_ok (env : Env) (t : Trace) (r : Int) (t1 : Trace)
    (h : cleanup_package_cache env t = some (r, t1)) : BodyOK t r t1 := by
  unfold cleanup_package_cache at h
  simp only at h
  split at h
  · simp only [Option.some.injEq, Prod.mk.injEq, List.append_assoc] at h
    obtain ⟨rfl, rfl⟩ := h
    exact bodyOK_intro _ _ _ ⟨rfl, rfl⟩ (Or.inr rfl) (by simp)
  · simp only [Option.some.injEq, Prod.mk.injEq, List.append_assoc] at h
    obtain ⟨rfl, rfl⟩ := h
    refine bodyOK_intro _ _ _ ⟨rfl, rfl⟩ (Or.inl rfl) (fun _ => ?_)
    intro e he
    simp only [List.cons_append, List.nil_append, List.mem_cons,
      List.mem_singleton, List.not_mem_nil, or_false] at he
    rcases he with rfl | rfl | rfl <;> simp_all [Event.toolFailed]

theorem cleanup_journal_ok (env : Env) (t : Trace) (r : Int) (t1 : Trace)
    (h : cleanup_journal env t = some (r, t1)) : BodyOK t r t1 := by
  unfold cleanup_journal at h
  simp only at h
  split at h
  · simp only [Option.some.injEq, Prod.mk.injEq, List.append_assoc] at h
    obtain ⟨rfl, rfl⟩ := h
    exact bodyOK_intro _ _ _ ⟨rfl, rfl⟩ (Or.inr rfl) (by simp)
  · simp only [Option.some.injEq, Prod.mk.injEq, List.append_assoc] at h
    obtain ⟨rfl, rfl⟩ := h
    refine bodyOK_intro _ _ _ ⟨rfl, rfl⟩ (Or.inl rfl) (fun _ => ?_)
    intro e he
    simp only [List.cons_append, List.nil_append, List.mem_cons,
      List.mem_singleton, List.not_mem_nil, or_false] at he
    rcases he with rfl | rfl | rfl <;> simp_all [Event.toolFailed]

theorem orReturn1_some (res : Option (Int × Trace)) (k : Trace → Option (Int × Trace))
    (out : Int × Trace) (h : orReturn1 res k = some out) :
    ∃ r t1, res = some (r, t1) ∧
      ((r ≠ 0 ∧ out = (1, t1)) ∨ (r = 0 ∧ k t1 = some out)) := by
  unfold orReturn1 at h
  split at h
  · exact absurd h (by simp)
  · rename_i r t1
    refine ⟨r, t1, rfl, ?_⟩
    by_cases hr : r = 0
    · right; simpa [hr] using h
    · left; simp only [ne_eq, hr, not_false_eq_true, if_true, Option.some.injEq] at h
      exact ⟨hr, h.symm⟩

/-- One statement `if (f() != 0) return 1;` of `main`: either the function
returned 1 and `main` returns 1 right after it, or it returned 0 without a
tool failure and `main` goes on. -/
theorem step_ok (a : Action) (body : Trace → Option (Int × Trace))
    (hbody : ∀ t r t1, body t = some (r, t1) → BodyOK t r t1)
    (t : Trace) (k : Trace → Option (Int × Trace)) (out : Int × Trace)
    (h : orReturn1 (invoke a body t) k = some out) :
    (∃ b, Quiet b ∧ out = (1, t ++ (Event.call a :: b ++ [Event.ret a 1]))) ∨
    (∃ b, Quiet b ∧ NoFail b ∧
      k (t ++ (Event.call a :: b ++ [Event.ret a 0])) = some out) := by
  obtain ⟨r, t1, hinv, hcase⟩ := orReturn1_some _ _ _ h
  unfold invoke at hinv
  split at hinv
  · exact absurd hinv (by simp)
  · rename_i r0 t0 hb
    simp only [Option.some.injEq, Prod.mk.injEq] at hinv
    obtain ⟨rfl, rfl⟩ := hinv
    obtain ⟨evs, rfl, hq, h01, hnf⟩ := hbody _ _ _ hb
    rcases hcase with ⟨hr, rfl⟩ | ⟨hr, hk⟩
    · left
      have h1 : r0 = 1 := by rcases h01 with h0 | h1; exact absurd h0 hr; exact h1
      subst h1
      exact ⟨evs, hq, by simp⟩
    · right
      subst hr
      refine ⟨evs, hq, hnf rfl, ?_⟩
      simpa using hk

theorem okRun_one {a : Action} {b : Trace} (hq : Quiet b) (hn : NoFail b) :
    OkRun [a] (Event.call a :: b ++ [Event.ret a 0]) := by
  have := OkRun.cons a hq hn OkRun.nil
  simpa using this

theorem okRun_append {as bs : List Action} {e1 e2 : Trace} (h1 : OkRun as e1)
    (h2 : OkRun bs e2) : OkRun (as ++ bs) (e1 ++ e2) := by
  induction h1 with
  | nil => simpa using h2
  | cons a hq hn _ ih =>
    have := OkRun.cons a hq hn ih
    simpa [List.append_assoc] using this

theorem print_usage_eq (t : Trace) : print_usage t = t ++ print_usage [] := by
  simp [print_usage]

/-- One call of `main` to a cleanup function, as a run of the one-element
list of functions. -/
theorem step_run (a : Action) (body : Trace → Option (Int × Trace))
    (hbody : ∀ t r t1, body t = some (r, t1) → BodyOK t r t1)
    (t : Trace) (k : Trace → Option (Int × Trace)) (out : Int × Trace)
    (h : orReturn1 (invoke a body t) k = some out) :
    (∃ evs, FailRun [a] evs ∧ out = (1, t ++ evs)) ∨
    (∃ evs, OkRun [a] evs ∧ k (t ++ evs) = some out) := by
  rcases step_ok a body hbody t k out h with ⟨b, hq, rfl⟩ | ⟨b, hq, hn, hk⟩
  · exact Or.inl ⟨_, ⟨[], a, [], [], b, rfl, OkRun.nil, hq, by simp⟩, rfl⟩
  · exact Or.inr ⟨_, okRun_one hq hn, hk⟩

theorem failRun_of_ok_fail {as bs : List Action} {e1 e2 : Trace} (h1 : OkRun as e1)
    (h2 : FailRun bs e2) : FailRun (as ++ bs) (e1 ++ e2) := by
  obtain ⟨done, a, more, evs0, b, rfl, hok, hq, rfl⟩ := h2
  exact ⟨as ++ done, a, more, e1 ++ evs0, b, by simp, okRun_append h1 hok, hq, by simp⟩

theorem failRun_mono {as : List Action} (bs : List Action) {e : Trace} (h : FailRun as e) :
    FailRun (as ++ bs) e := by
  obtain ⟨done, a, more, evs0, b, rfl, hok, hq, rfl⟩ := h
  exact ⟨done, a, more ++ bs, evs0, b, by simp, hok, hq, rfl⟩

/-- Every result of the argument loop is a run. -/
theorem main_loop_run (env : Env) (args : List String) :
    ∀ (t : Trace) (s : Int) (t1 : Trace), main_loop env args t = some (s, t1) →
      ∃ evs, t1 = t ++ evs ∧ Run args s evs := by
  induction args with
  | nil =>
    intro t s t1 h
    simp only [main_loop, Option.some.injEq, Prod.mk.injEq] at h
    obtain ⟨rfl, rfl⟩ := h
    exact ⟨[], by simp, Run.done⟩
  | cons arg rest ih =>
    intro t s t1 h
    unfold main_loop at h
    split_ifs at h with h1 h2 h3 h4 h5
    · have hflag : isActionFlag arg := Or.inl h1
      have hacts : flagActions arg = [.orphans] := by simp [flagActions, h1]
      rcases step_run _ _ (cleanup_orphans_ok env) t _ _ h with
        ⟨evs, hf, heq⟩ | ⟨evs, hok, hk⟩
      · simp only [Prod.mk.injEq] at heq
        obtain ⟨rfl, rfl⟩ := heq
        exact ⟨evs, rfl, Run.fail arg rest evs hflag (hacts ▸ hf)⟩
      · obtain ⟨evs1, rfl, hrun⟩ := ih _ _ _ hk
        exact ⟨evs ++ evs1, by simp, Run.ok arg rest evs evs1 s hflag (hacts ▸ hok) hrun⟩
    · have hflag : isActionFlag arg := Or.inr (Or.inl h2)
      have hacts : flagActions arg = [.cache] := by simp [flagActions, h1, h2]
      rcases step_run _ _ (cleanup_package_cache_ok env) t _ _ h with
        ⟨evs, hf, heq⟩ | ⟨evs, hok, hk⟩
      · simp only [Prod.mk.injEq] at heq
        obtain ⟨rfl, rfl⟩ := heq
        exact ⟨evs, rfl, Run.fail arg rest evs hflag (hacts ▸ hf)⟩
      · obtain ⟨evs1, rfl, hrun⟩ := ih _ _ _ hk
        exact ⟨evs ++ evs1, by simp, Run.ok arg rest evs evs1 s hflag (hacts ▸ hok) hrun⟩
    · have hflag : isActionFlag arg := Or.inr (Or.inr (Or.inl h3))
      have hacts : flagActions arg = [.journal] := by simp [flagActions, h1, h2, h3]
      rcases step_run _ _ (cleanup_journal_ok env) t _ _ h with
        ⟨evs, hf, heq⟩ | ⟨evs, hok, hk⟩
      · simp only [Prod.mk.injEq] at heq
        obtain ⟨rfl, rfl⟩ := heq
        exact ⟨evs, rfl, Run.fail arg rest evs hflag (hacts ▸ hf)⟩
      · obtain ⟨evs1, rfl, hrun⟩ := ih _ _ _ hk
        exact ⟨evs ++ evs1, by simp, Run.ok arg rest evs evs1 s hflag (hacts ▸ hok) hrun⟩
    · have hflag : isActionFlag arg := Or.inr (Or.inr (Or.inr h4))
      have hacts : flagActions arg = [.orphans, .cache, .journal] := by
        simp [flagActions, h1, h2, h3, h4]
      rcases step_run _ _ (cleanup_orphans_ok env) t _ _ h with
        ⟨e1, hf, heq⟩ | ⟨e1, hok1, hk1⟩
      · simp only [Prod.mk.injEq] at heq
        obtain ⟨rfl, rfl⟩ := heq
        refine ⟨e1, rfl, Run.fail arg rest e1 hflag ?_⟩
        rw [hacts]
        exact failRun_mono [.cache, .journal] hf
      · rcases step_run _ _ (cleanup_package_cache_ok env) _ _ _ hk1 with
          ⟨e2, hf, heq⟩ | ⟨e2, hok2, hk2⟩
        · simp only [Prod.mk.injEq] at heq
          obtain ⟨rfl, rfl⟩ := heq
          refine ⟨e1 ++ e2, by simp, Run.fail arg rest _ hflag ?_⟩
          rw [hacts]
          exact failRun_of_ok_fail hok1 (failRun_mono [.journal] hf)
        · rcases step_run _ _ (cleanup_journal_ok env) _ _ _ hk2 with
            ⟨e3, hf, heq⟩ | ⟨e3, hok3, hk3⟩
          · simp only [Prod.mk.injEq] at heq
            obtain ⟨rfl, rfl⟩ := heq
            refine ⟨e1 ++ (e2 ++ e3), by simp, Run.fail arg rest _ hflag ?_⟩
            rw [hacts]
            exact failRun_of_ok_fail hok1 (failRun_of_ok_fail hok2 hf)
          · obtain ⟨evs1, rfl, hrun⟩ := ih _ _ _ hk3
            refine ⟨(e1 ++ (e2 ++ e3)) ++ evs1, by simp,
              Run.ok arg rest _ evs1 s hflag ?_ hrun⟩
            rw [hacts]
            exact okRun_append hok1 (okRun_append hok2 hok3)
    · simp only [Option.some.injEq, Prod.mk.injEq] at h
      obtain ⟨rfl, rfl⟩ := h
      subst h5
      exact ⟨print_usage [], print_usage_eq t, Run.help rest⟩
    · simp only [Option.some.injEq, Prod.mk.injEq] at h
      obtain ⟨rfl, rfl⟩ := h
      refine ⟨print_usage [Event.stderr ("Unknown option: " ++ arg ++ "\n")], ?_,
        Run.unknown arg rest ?_⟩
      · simp [print_usage]
      · simp [isKnownFlag, isActionFlag, h1, h2, h3, h4, h5]

/-! ## Properties of runs -/

theorem schedule_append (t u : Trace) : schedule (t ++ u) = schedule t ++ schedule u := by
  simp [schedule, List.filter_append]

theorem Quiet.schedule_eq {evs : Trace} (h : Quiet evs) : schedule evs = [] := by
  obtain ⟨hc, hr⟩ := h
  induction evs with
  | nil => rfl
  | cons e evs ih =>
    cases e <;>
      simp_all [schedule, calls, rets, List.filter_cons, List.filterMap_cons]

theorem calls_cons_call (a : Action) (l : Trace) :
    calls (Event.call a :: l) = a :: calls l := rfl

theorem calls_cons_ret (a : Action) (r : Int) (l : Trace) :
    calls (Event.ret a r :: l) = calls l := rfl

theorem schedule_cons_call (a : Action) (l : Trace) :
    schedule (Event.call a :: l) = Event.call a :: schedule l := rfl

theorem schedule_cons_ret (a : Action) (r : Int) (l : Trace) :
    schedule (Event.ret a r :: l) = Event.ret a r :: schedule l := rfl

theorem okRun_calls {as : List Action} {evs : Trace} (h : OkRun as evs) :
    calls evs = as := by
  induction h with
  | nil => rfl
  | cons a hq _ _ ih =>
    simp [calls_cons_call, calls_cons_ret, calls_append, hq.1, ih]

theorem okRun_schedule {as : List Action} {evs : Trace} (h : OkRun as evs) :
    schedule evs = as.flatMap fun a => [Event.call a, Event.ret a 0] := by
  induction h with
  | nil => rfl
  | cons a hq _ _ ih =>
    simp [schedule_cons_call, schedule_cons_ret, schedule_append, hq.schedule_eq, ih]

theorem okRun_ret_zero {as : List Action} {evs : Trace} (h : OkRun as evs) :
    ∀ a r, Event.ret a r ∈ evs → r = 0 := by
  induction h with
  | nil => intro a r hm; exact absurd hm (by simp)
  | cons a0 hq _ _ ih =>
    intro a r hm
    simp only [List.cons_append, List.append_assoc, List.singleton_append, List.mem_cons,
      List.mem_append, reduceCtorEq, false_or, Event.ret.injEq, List.nil_append] at hm
    rcases hm with hm | ⟨_, rfl⟩ | hm
    · exact absurd hm (hq.ret_not_mem a r)
    · rfl
    · exact ih a r hm

theorem okRun_noFail {as : List Action} {evs : Trace} (h : OkRun as evs) : NoFail evs := by
  induction h with
  | nil => intro e he; exact absurd he (by simp)
  | cons a0 _ hn _ ih =>
    intro e he
    simp only [List.cons_append, List.append_assoc, List.singleton_append, List.mem_cons,
      List.mem_append, List.nil_append] at he
    rcases he with rfl | he | rfl | he
    · rfl
    · exact hn e he
    · rfl
    · exact ih e he

theorem failRun_calls {as : List Action} {evs : Trace} (h : FailRun as evs) :
    ∃ done a more, as = done ++ a :: more ∧ calls evs = done ++ [a] := by
  obtain ⟨done, a, more, evs0, b, rfl, hok, hq, rfl⟩ := h
  refine ⟨done, a, more, rfl, ?_⟩
  simp [calls_cons_call, calls_cons_ret, calls_append, hq.1, okRun_calls hok]
  rfl

/-- The events of a failing run end with the return of 1, and no other
function returned a non-zero value. -/
theorem failRun_last {as : List Action} {evs : Trace} (h : FailRun as evs) :
    ∃ pre a, evs = pre ++ [Event.ret a 1] ∧ ∀ b r, Event.ret b r ∈ pre → r = 0 := by
  obtain ⟨done, a, more, evs0, b, rfl, hok, hq, rfl⟩ := h
  refine ⟨evs0 ++ Event.call a :: b, a, by simp, ?_⟩
  intro c r hm
  simp only [List.mem_append, List.mem_cons, reduceCtorEq, false_or] at hm
  rcases hm with hm | hm
  · exact okRun_ret_zero hok c r hm
  · exact absurd hm (hq.ret_not_mem c r)

theorem Run.nil_inv {s : Int} {evs : Trace} (h : Run [] s evs) : s = 0 ∧ evs = [] := by
  cases h; exact ⟨rfl, rfl⟩

theorem Run.cons_inv {arg : String} {rest : List String} {s : Int} {evs : Trace}
    (h : Run (arg :: rest) s evs) :
    (arg = "--help" ∧ s = 0 ∧ evs = print_usage []) ∨
    (¬ isKnownFlag arg ∧ s = 1 ∧
      evs = print_usage [Event.stderr ("Unknown option: " ++ arg ++ "\n")]) ∨
    (isActionFlag arg ∧ s = 1 ∧ FailRun (flagActions arg) evs) ∨
    (isActionFlag arg ∧ ∃ e1 e2, evs = e1 ++ e2 ∧ OkRun (flagActions arg) e1 ∧
      Run rest s e2) := by
  cases h with
  | help => exact Or.inl ⟨rfl, rfl, rfl⟩
  | unknown _ _ hu => exact Or.inr (Or.inl ⟨hu, rfl, rfl⟩)
  | fail _ _ _ hf hr => exact Or.inr (Or.inr (Or.inl ⟨hf, rfl, hr⟩))
  | ok _ _ e1 e2 _ hf hok hr => exact Or.inr (Or.inr (Or.inr ⟨hf, e1, e2, rfl, hok, hr⟩))

theorem ret_not_mem_print_usage (l : Trace) (hl : ∀ a r, Event.ret a r ∉ l) (a : Action)
    (r : Int) : Event.ret a r ∉ print_usage l := by
  simp [print_usage, hl a r]

theorem calls_print_usage (l : Trace) : calls (print_usage l) = calls l := by
  rw [print_usage, calls_append]
  exact List.append_nil _

/-- Fail-fast on runs: either every cleanup function that returned, returned
0, or the run ends with a return of 1, `main` returns 1, and every earlier
return was 0. -/
theorem run_failfast {args : List String} {s : Int} {evs : Trace} (h : Run args s evs) :
    (∀ a r, Event.ret a r ∈ evs → r = 0) ∨
    (s = 1 ∧ ∃ pre a, evs = pre ++ [Event.ret a 1] ∧
      ∀ b r, Event.ret b r ∈ pre → r = 0) := by
  induction h with
  | done => left; intro a r hm; exact absurd hm (by simp)
  | help =>
    left; intro a r hm
    exact absurd hm (ret_not_mem_print_usage [] (by simp) a r)
  | unknown =>
    left; intro a r hm
    exact absurd hm (ret_not_mem_print_usage _ (by simp) a r)
  | fail _ _ _ _ hr => right; exact ⟨rfl, failRun_last hr⟩
  | ok _ _ e1 e2 _ _ hok _ ih =>
    have h1 := okRun_ret_zero hok
    rcases ih with ih | ⟨hs, pre, a, rfl, hpre⟩
    · left; intro a r hm
      rcases List.mem_append.mp hm with hm | hm
      · exact h1 a r hm
      · exact ih a r hm
    · right
      refine ⟨hs, e1 ++ pre, a, by simp, ?_⟩
      intro b r hm
      rcases List.mem_append.mp hm with hm | hm
      · exact h1 b r hm
      · exact hpre b r hm

/-- When only action flags are given and every cleanup function returns 0,
the functions called are those of the flags, left to right, and `main`
returns 0. -/
theorem run_all_ok {args : List String} {s : Int} {evs : Trace} (h : Run args s evs)
    (hflags : ∀ x ∈ args, isActionFlag x) (hz : ∀ a r, Event.ret a r ∈ evs → r = 0) :
    calls evs = args.flatMap flagActions ∧ s = 0 := by
  induction h with
  | done => exact ⟨rfl, rfl⟩
  | help rest =>
    exact absurd (hflags "--help" (List.mem_cons_self _ _)) (by decide)
  | unknown arg rest hu =>
    exact absurd (Or.inl (hflags arg (List.mem_cons_self _ _))) hu
  | fail _ _ _ _ hr =>
    obtain ⟨pre, a, rfl, _⟩ := failRun_last hr
    exact absurd (hz a 1 (by simp)) (by decide)
  | ok arg rest e1 e2 _ _ hok _ ih =>
    obtain ⟨hc, hs⟩ := ih (fun x hx => hflags x (List.mem_cons_of_mem _ hx))
      (fun a r hm => hz a r (List.mem_append_right _ hm))
    exact ⟨by rw [calls_append, okRun_calls hok, hc, List.flatMap_cons], hs⟩

/-- A tool failure ends the run: the cleanup function returns 1 and `main`
returns 1 right after it. -/
theorem run_toolFailed {args : List String} {s : Int} {evs : Trace} (h : Run args s evs)
    (hf : ∃ e ∈ evs, e.toolFailed = true) :
    s = 1 ∧ ∃ pre a, evs = pre ++ [Event.ret a 1] := by
  induction h with
  | done => obtain ⟨e, he, _⟩ := hf; exact absurd he (by simp)
  | help =>
    obtain ⟨e, he, hfe⟩ := hf
    simp only [print_usage, List.nil_append, List.mem_cons, List.mem_singleton,
      List.not_mem_nil, or_false] at he
    rcases he with rfl | rfl | rfl | rfl | rfl | rfl | rfl <;> exact absurd hfe (by decide)
  | unknown =>
    obtain ⟨e, he, hfe⟩ := hf
    simp only [print_usage, List.cons_append, List.nil_append, List.mem_cons,
      List.mem_singleton, List.not_mem_nil, or_false] at he
    rcases he with rfl | rfl | rfl | rfl | rfl | rfl | rfl | rfl <;>
      exact absurd hfe (by simp [Event.toolFailed])
  | fail _ _ _ _ hr =>
    obtain ⟨pre, a, he, _⟩ := failRun_last hr
    exact ⟨rfl, pre, a, he⟩
  | ok _ _ e1 e2 _ _ hok _ ih =>
    obtain ⟨e, he, hfe⟩ := hf
    rcases List.mem_append.mp he with he | he
    · have := okRun_noFail hok e he
      rw [this] at hfe
      exact absurd hfe (by decide)
    · obtain ⟨hs, pre, a, rfl⟩ := ih ⟨e, he, hfe⟩
      exact ⟨hs, e1 ++ pre, a, by simp⟩

theorem failRun_calls_initial {as : List Action} {evs : Trace} (h : FailRun as evs) :
    calls evs <+: as := by
  obtain ⟨done, a, more, rfl, hc⟩ := failRun_calls h
  rw [hc]
  exact ⟨more, by simp⟩

/-- An unknown string stops the run: the functions called are a prefix of
those of the flags before it, and `main` returns 1 unless a `--help` came
first. -/
theorem run_unknown (pre : List String) (u : String) (post : List String)
    (hu : ¬ isKnownFlag u) :
    ∀ (s : Int) (evs : Trace), Run (pre ++ u :: post) s evs →
      calls evs <+: pre.flatMap flagActions ∧ ("--help" ∉ pre → s = 1) := by
  induction pre with
  | nil =>
    intro s evs h
    rcases Run.cons_inv h with ⟨hh, _, _⟩ | ⟨_, hs, he⟩ | ⟨hf, _, _⟩ | ⟨hf, _⟩
    · exact absurd (Or.inr hh) hu
    · subst he
      exact ⟨by rw [calls_print_usage]; exact List.nil_prefix, fun _ => hs⟩
    · exact absurd (Or.inl hf) hu
    · exact absurd (Or.inl hf) hu
  | cons a pre ih =>
    intro s evs h
    rcases Run.cons_inv h with ⟨hh, _, he⟩ | ⟨_, hs, he⟩ | ⟨_, hs, hfail⟩ |
      ⟨_, e1, e2, he, hok, hrest⟩
    · subst he
      refine ⟨by rw [calls_print_usage]; exact List.nil_prefix, fun hn => ?_⟩
      exact absurd (hh ▸ List.mem_cons_self _ _) hn
    · subst he
      exact ⟨by rw [calls_print_usage]; exact List.nil_prefix, fun _ => hs⟩
    · refine ⟨?_, fun _ => hs⟩
      rw [List.flatMap_cons]
      exact (failRun_calls_initial hfail).trans (List.prefix_append _ _)
    · obtain ⟨hp, hs⟩ := ih s e2 hrest
      subst he
      refine ⟨?_, fun hn => hs (fun hm => hn (List.mem_cons_of_mem _ hm))⟩
      rw [calls_append, okRun_calls hok, List.flatMap_cons]
      exact (List.prefix_append_right_inj _).mpr hp

/-- Before a `--help`: when the flags before it are action flags whose
functions all return 0, `main` prints the usage text last and returns 0. -/
theorem run_help (pre : List String) (post : List String) :
    ∀ (s : Int) (evs : Trace), Run (pre ++ "--help" :: post) s evs →
      (∀ x ∈ pre, isActionFlag x) → (∀ a r, Event.ret a r ∈ evs → r = 0) →
      s = 0 ∧ ∃ t0, evs = print_usage t0 ∧ calls t0 = pre.flatMap flagActions := by
  induction pre with
  | nil =>
    intro s evs h _ _
    rcases Run.cons_inv h with ⟨_, hs, he⟩ | ⟨hk, _, _⟩ | ⟨hf, _, _⟩ | ⟨hf, _⟩
    · exact ⟨hs, [], he, rfl⟩
    · exact absurd (Or.inr rfl) hk
    · exact absurd hf (by decide)
    · exact absurd hf (by decide)
  | cons a pre ih =>
    intro s evs h hflags hz
    have ha : isActionFlag a := hflags a (List.mem_cons_self _ _)
    rcases Run.cons_inv h with ⟨hh, _, _⟩ | ⟨hk, _, _⟩ | ⟨_, _, hfail⟩ |
      ⟨_, e1, e2, he, hok, hrest⟩
    · exact absurd (hh ▸ ha) (by decide)
    · exact absurd (Or.inl ha) hk
    · obtain ⟨p0, a0, rfl, _⟩ := failRun_last hfail
      exact absurd (hz a0 1 (by simp)) (by decide)
    · subst he
      obtain ⟨hs, t0, rfl, hc⟩ := ih s e2 hrest
        (fun x hx => hflags x (List.mem_cons_of_mem _ hx))
        (fun b r hm => hz b r (List.mem_append_right _ hm))
      refine ⟨hs, e1 ++ t0, by simp [print_usage], ?_⟩
      rw [calls_append, okRun_calls hok, hc, List.flatMap_cons]

/-! ## The read loop of `cleanup_orphans` -/

theorem readLine_append (k : Nat) (s : List Char) :
    (readLine k s).1 ++ (readLine k s).2 = s := by
  induction k generalizing s with
  | zero => simp [readLine]
  | succ k ih =>
    cases s with
    | nil => simp [readLine]
    | cons c s =>
      by_cases hc : c = '\n'
      · simp [readLine, hc]
      · simp [readLine, hc, ih]

theorem readLine_rest_lt (k : Nat) (s : List Char) (hs : s ≠ []) :
    (readLine (k + 1) s).2.length < s.length := by
  cases s with
  | nil => exact absurd rfl hs
  | cons c s =>
    by_cases hc : c = '\n'
    · simp [readLine, hc]
    · have h := congrArg List.length (readLine_append k s)
      simp only [List.length_append] at h
      simp only [readLine, hc, if_false, List.length_cons]
      omega

theorem strcat_length_le (d s : List Char) : (strcat d s).length ≤ d.length + s.length := by
  unfold strcat
  have := List.Sublist.length_le
    (List.takeWhile_sublist (fun c => decide (c ≠ Char.ofNat 0)) : List.Sublist _ s)
  simp only [List.length_append]
  omega

theorem strcat_of_noNul (d s : List Char) (h : ∀ c ∈ s, c ≠ Char.ofNat 0) :
    strcat d s = d ++ s := by
  unfold strcat
  congr 1
  rw [List.takeWhile_eq_self_iff]
  intro c hc
  simpa using h c hc

/-- The read loop returns when the output fits the buffer; the fuel
`stream.length` is enough. -/
theorem read_loop_some (fuel : Nat) :
    ∀ (stream packages : List Char), stream.length ≤ fuel →
      packages.length + stream.length < 4096 →
      ∃ pk, read_loop fuel stream packages = some pk := by
  induction fuel with
  | zero =>
    intro stream packages hf _
    have : stream = [] := List.length_eq_zero.mp (Nat.le_zero.mp hf)
    subst this
    exact ⟨packages, by simp [read_loop, fgets]⟩
  | succ fuel ih =>
    intro stream packages hf hb
    by_cases hs : stream = []
    · subst hs
      exact ⟨packages, by simp [read_loop, fgets]⟩
    · have hrest : (readLine 255 stream).2.length < stream.length :=
        readLine_rest_lt 254 stream hs
      have happ := congrArg List.length (readLine_append 255 stream)
      simp only [List.length_append] at happ
      have hcat := strcat_length_le packages (readLine 255 stream).1
      have hfit : (strcat packages (readLine 255 stream).1).length + 1 ≤ 4096 := by omega
      obtain ⟨pk, hpk⟩ := ih (readLine 255 stream).2
        (strcat packages (readLine 255 stream).1) (by omega) (by omega)
      refine ⟨pk, ?_⟩
      rw [read_loop]
      simp only [fgets, hs, if_false, Nat.add_one_sub_one, hfit, if_true]
      exact hpk

/-- On an output without NUL bytes that fits the buffer, the read loop
appends the whole output to `packages`. -/
theorem read_loop_exact (fuel : Nat) :
    ∀ (stream packages : List Char), stream.length ≤ fuel →
      packages.length + stream.length < 4096 →
      (∀ c ∈ stream, c ≠ Char.ofNat 0) →
      read_loop fuel stream packages = some (packages ++ stream) := by
  induction fuel with
  | zero =>
    intro stream packages hf _ _
    have : stream = [] := List.length_eq_zero.mp (Nat.le_zero.mp hf)
    subst this
    simp [read_loop, fgets]
  | succ fuel ih =>
    intro stream packages hf hb hn
    by_cases hs : stream = []
    · subst hs
      simp [read_loop, fgets]
    · have hrest : (readLine 255 stream).2.length < stream.length :=
        readLine_rest_lt 254 stream hs
      have happ := readLine_append 255 stream
      have hlen := congrArg List.length happ
      simp only [List.length_append] at hlen
      have hn1 : ∀ c ∈ (readLine 255 stream).1, c ≠ Char.ofNat 0 := fun c hc =>
        hn c (by rw [← happ]; exact List.mem_append_left _ hc)
      have hn2 : ∀ c ∈ (readLine 255 stream).2, c ≠ Char.ofNat 0 := fun c hc =>
        hn c (by rw [← happ]; exact List.mem_append_right _ hc)
      have hcat := strcat_of_noNul packages _ hn1
      have hfit : (strcat packages (readLine 255 stream).1).length + 1 ≤ 4096 := by
        rw [hcat, List.length_append]; omega
      have := ih (readLine 255 stream).2 (strcat packages (readLine 255 stream).1)
        (by omega) (by rw [hcat, List.length_append]; omega) hn2
      rw [read_loop]
      simp only [fgets, hs, if_false, Nat.add_one_sub_one, hfit, if_true]
      rw [this, hcat, List.append_assoc, happ]

/-! ## Totality -/

theorem cleanup_orphans_isSome (env : Env) (hb : env.bounded) (t : Trace) :
    ∃ r t1, cleanup_orphans env t = some (r, t1) := by
  unfold cleanup_orphans
  simp only
  split
  · exact ⟨_, _, rfl⟩
  · rename_i output st hp
    obtain ⟨pk, hpk⟩ := read_loop_some output.data.length output.data [] (le_refl _)
      (by have := hb _ _ _ _ hp; simpa using this)
    rw [hpk]
    simp only
    split
    · split <;> exact ⟨_, _, rfl⟩
    · exact ⟨_, _, rfl⟩

theorem cleanup_package_cache_isSome (env : Env) (t : Trace) :
    ∃ r t1, cleanup_package_cache env t = some (r, t1) := by
  unfold cleanup_package_cache
  simp only
  split <;> exact ⟨_, _, rfl⟩

theorem cleanup_journal_isSome (env : Env) (t : Trace) :
    ∃ r t1, cleanup_journal env t = some (r, t1) := by
  unfold cleanup_journal
  simp only
  split <;> exact ⟨_, _, rfl⟩

theorem orReturn1_invoke_isSome (a : Action) (body : Trace → Option (Int × Trace))
    (hbody : ∀ t, ∃ r t1, body t = some (r, t1)) (k : Trace → Option (Int × Trace))
    (hk : ∀ t, ∃ s t1, k t = some (s, t1)) (t : Trace) :
    ∃ s t1, orReturn1 (invoke a body t) k = some (s, t1) := by
  obtain ⟨r, t0, hb⟩ := hbody (t ++ [Event.call a])
  unfold invoke orReturn1
  rw [hb]
  simp only
  split
  · exact ⟨_, _, rfl⟩
  · exact hk _

/-- The argument loop returns when no orphan query overflows the buffer. -/
theorem main_loop_isSome (env : Env) (hb : env.bounded) (args : List String) :
    ∀ t, ∃ s t1, main_loop env args t = some (s, t1) := by
  induction args with
  | nil => intro t; exact ⟨_, _, rfl⟩
  | cons arg rest ih =>
    intro t
    unfold main_loop
    split_ifs
    · exact orReturn1_invoke_isSome _ _ (cleanup_orphans_isSome env hb) _ ih t
    · exact orReturn1_invoke_isSome _ _ (cleanup_package_cache_isSome env) _ ih t
    · exact orReturn1_invoke_isSome _ _ (cleanup_journal_isSome env) _ ih t
    · exact orReturn1_invoke_isSome _ _ (cleanup_orphans_isSome env hb) _
        (fun t1 => orReturn1_invoke_isSome _ _ (cleanup_package_cache_isSome env) _
          (fun t2 => orReturn1_invoke_isSome _ _ (cleanup_journal_isSome env) _ ih t2) t1) t
    · exact ⟨_, _, rfl⟩
    · exact ⟨_, _, rfl⟩

theorem main_isSome (env : Env) (hb : env.bounded) (argv : List String) :
    ∃ s t, main env argv = some (s, t) := by
  unfold main
  split_ifs
  · exact ⟨_, _, rfl⟩
  · exact ⟨_, _, rfl⟩
  · exact main_loop_isSome env hb _ _

/-- Every result of an elevated `main` with at least one argument is a run
of its arguments. -/
theorem main_run (env : Env) (h : env.geteuid = 0) (p : String) (arg : String)
    (args : List String) (s : Int) (t : Trace)
    (hm : main env (p :: arg :: args) = some (s, t)) : Run (arg :: args) s t := by
  unfold main at hm
  simp only [h, ne_eq, not_true_eq_false, if_false, List.length_cons] at hm
  rw [if_neg (by omega)] at hm
  obtain ⟨evs, rfl, hrun⟩ := main_loop_run env _ _ _ _ hm
  simpa using hrun

theorem main_eq_loop (env : Env) (h : env.geteuid = 0) (p : String) (args : List String)
    (hne : args ≠ []) : main env (p :: args) = main_loop env args [] := by
  cases args with
  | nil => exact absurd rfl hne
  | cons a as =>
    unfold main
    simp only [h, ne_eq, not_true_eq_false, if_false, List.length_cons]
    rw [if_neg (by omega)]
    rfl

theorem main_no_args (env : Env) (h : env.geteuid = 0) (argv : List String)
    (hargc : argv.length < 2) : main env argv = some (1, print_usage []) := by
  unfold main
  rw [if_neg (by simp [h]), if_pos hargc]

theorem main_loop_help_cut (env : Env) (pre post : List String) :
    ∀ t, main_loop env (pre ++ "--help" :: post) t = main_loop env (pre ++ ["--help"]) t := by
  induction pre with
  | nil => intro t; simp [main_loop]
  | cons a pre ih =>
    intro t
    have hk : main_loop env (pre ++ "--help" :: post) = main_loop env (pre ++ ["--help"]) :=
      funext ih
    rw [List.cons_append, List.cons_append, main_loop, main_loop, hk]

theorem orphanNames_length : orphanNames.length = 4067 := by
  simp only [orphanNames, List.length_flatten, List.map_replicate, List.length_append,
    List.length_replicate, List.length_singleton, List.sum_replicate, smul_eq_mul]

theorem orphanNames_noNul : ∀ c ∈ orphanNames, c ≠ Char.ofNat 0 := by
  intro c hc
  simp only [orphanNames, List.mem_flatten, List.mem_replicate] at hc
  obtain ⟨l, ⟨_, rfl⟩, hc⟩ := hc
  simp only [List.mem_append, List.mem_replicate, List.mem_singleton] at hc
  rcases hc with ⟨_, rfl⟩ | rfl <;> decide

/-- Below the limit of the buffers: when the orphan query writes between 1
and 4066 bytes, none of them NUL, `cleanup_orphans` returns and the commands
it runs are the query and one removal command whose text is
`sudo pacman -Rns `, the whole output, ` --noconfirm`. -/
theorem removal_command_exact (env : Env) (t : Trace) (output : String) (st : Int)
    (hp : env.popen (t ++ [Event.stdout "Cleaning up orphaned packages...\n"])
      "pacman -Qtdq" = some (output, st))
    (hne : 0 < output.data.length) (hlen : output.data.length ≤ 4066)
    (hn : ∀ c ∈ output.data, c ≠ Char.ofNat 0) :
    ∃ r evs, cleanup_orphans env t = some (r, t ++ evs) ∧
      commands evs = ["pacman -Qtdq",
        String.mk ("sudo pacman -Rns ".data ++ output.data ++ " --noconfirm".data)] := by
  have hread : read_loop output.data.length output.data [] = some output.data := by
    have := read_loop_exact output.data.length output.data [] (le_refl _)
      (by simp only [List.length_nil]; omega) hn
    simpa using this
  have htake : snprintf 4096 ("sudo pacman -Rns ".data ++ output.data ++ " --noconfirm".data)
      = "sudo pacman -Rns ".data ++ output.data ++ " --noconfirm".data := by
    unfold snprintf
    apply List.take_of_length_le
    have h1 : "sudo pacman -Rns ".data.length = 17 := rfl
    have h2 : " --noconfirm".data.length = 12 := rfl
    rw [List.length_append, List.length_append, h1, h2]
    omega
  unfold cleanup_orphans
  simp only [hp, hread, htake, gt_iff_lt, hne, if_true]
  split
  · simp only [List.append_assoc]
    exact ⟨1, _, rfl, rfl⟩
  · simp only [List.append_assoc]
    exact ⟨0, _, rfl, rfl⟩

/-- At 4067 bytes of output without a NUL byte the removal command loses its
last byte: `snprintf` stores 4095 of the 4096 bytes of the text. -/
theorem cleanup_orphans_cut (names : List Char) (hlen : names.length = 4067)
    (hn : ∀ c ∈ names, c ≠ Char.ofNat 0) :
    cleanup_orphans (constEnv 0 (String.mk names) 0 0) [] = some (0,
      [Event.stdout "Cleaning up orphaned packages...\n",
       Event.popen "pacman -Qtdq" true, Event.pclose 0,
       Event.system
         (String.mk ("sudo pacman -Rns ".data ++ names ++ " --noconfir".data)) 0,
       Event.stdout "Orphaned packages removed successfully\n"]) := by
  have hread : read_loop names.length names [] = some names := by
    have := read_loop_exact names.length names [] (le_refl _)
      (by rw [hlen]; decide) hn
    simpa using this
  have htake : snprintf 4096 ("sudo pacman -Rns ".data ++ names ++ " --noconfirm".data)
      = "sudo pacman -Rns ".data ++ names ++ " --noconfir".data := by
    have hA : ("sudo pacman -Rns ".data ++ names).length = 4084 := by
      rw [List.length_append, hlen]; rfl
    unfold snprintf
    rw [List.take_append_eq_append_take, hA, List.take_of_length_le (by rw [hA]; decide),
      show List.take (4096 - 1 - 4084) " --noconfirm".data = " --noconfir".data from by
        decide]
  have hpos : names.length > 0 := by rw [hlen]; decide
  unfold cleanup_orphans
  simp only [constEnv, hread, hpos, htake, if_true]
  simp

theorem cut_command_ne (names : List Char) :
    String.mk ("sudo pacman -Rns ".data ++ names ++ " --noconfir".data) ≠
      String.mk ("sudo pacman -Rns ".data ++ names ++ " --noconfirm".data) := by
  intro heq
  have h1 := congrArg String.data heq
  simp only [List.append_assoc, List.append_cancel_left_eq] at h1
  exact absurd h1 (by decide)

/-! ## The claims -/

/-- Claim C1. Without elevated privilege (effective user id not 0) `main`
returns a non-zero status for every argument vector and every environment,
and runs no command and calls no cleanup function. -/
theorem not_root_exits_nonzero (env : Env) (argv : List String) (h : env.geteuid ≠ 0) :
    ∃ s t, main env argv = some (s, t) ∧ s ≠ 0 ∧ commands t = [] ∧ calls t = [] := by
  refine ⟨1, [Event.stderr "This program must be run as root\n"], ?_, by decide, rfl, rfl⟩
  unfold main
  rw [if_pos h]

theorem not_root_exits_nonzero_witness :
    (constEnv 1000 "glibc\n" 0 0).geteuid ≠ 0 ∧
    ∃ s t, main (constEnv 1000 "glibc\n" 0 0) ["system-cleanup", "--all"] = some (s, t) ∧
      s ≠ 0 ∧ commands t = [] ∧ calls t = [] :=
  ⟨by decide, not_root_exits_nonzero _ _ (by decide)⟩

/-- Claim C10. An elevated `main` with no arguments (`argc < 2`) prints the
usage text, returns 1, and runs no command and calls no cleanup function. -/
theorem no_arguments_prints_usage (env : Env) (argv : List String) (h : env.geteuid = 0)
    (hargc : argv.length < 2) :
    main env argv = some (1, print_usage []) ∧ commands (print_usage []) = [] ∧
      calls (print_usage []) = [] := by
  exact ⟨main_no_args env h argv hargc, rfl, rfl⟩

theorem no_arguments_prints_usage_witness :
    (constEnv 0 "glibc\n" 0 0).geteuid = 0 ∧ ["system-cleanup"].length < 2 ∧
    main (constEnv 0 "glibc\n" 0 0) ["system-cleanup"] = some (1, print_usage []) ∧
      commands (print_usage []) = [] ∧ calls (print_usage []) = [] :=
  ⟨rfl, by decide, no_arguments_prints_usage _ _ rfl (by decide)⟩

/-- Claim C6. When the orphan query is launched and writes nothing,
`cleanup_orphans` returns 0, prints that no orphaned packages were found, and
runs no command besides the query (so no removal command), whatever status the
query ends with. -/
theorem no_orphans_no_removal (env : Env) (t : Trace) (st : Int)
    (h : env.popen (t ++ [Event.stdout "Cleaning up orphaned packages...\n"])
      "pacman -Qtdq" = some ("", st)) :
    cleanup_orphans env t = some (0, t ++
      [Event.stdout "Cleaning up orphaned packages...\n",
       Event.popen "pacman -Qtdq" true, Event.pclose st,
       Event.stdout "No orphaned packages found\n"]) ∧
    commands [Event.stdout "Cleaning up orphaned packages...\n",
       Event.popen "pacman -Qtdq" true, Event.pclose st,
       Event.stdout "No orphaned packages found\n"] = ["pacman -Qtdq"] := by
  refine ⟨?_, rfl⟩
  unfold cleanup_orphans
  simp only [h]
  simp [read_loop, fgets]

theorem no_orphans_no_removal_witness :
    (constEnv 0 "" 256 0).popen ([] ++ [Event.stdout "Cleaning up orphaned packages...\n"])
      "pacman -Qtdq" = some ("", 256) ∧
    cleanup_orphans (constEnv 0 "" 256 0) [] = some (0, [] ++
      [Event.stdout "Cleaning up orphaned packages...\n",
       Event.popen "pacman -Qtdq" true, Event.pclose 256,
       Event.stdout "No orphaned packages found\n"]) ∧
    commands [Event.stdout "Cleaning up orphaned packages...\n",
       Event.popen "pacman -Qtdq" true, Event.pclose 256,
       Event.stdout "No orphaned packages found\n"] = ["pacman -Qtdq"] :=
  ⟨rfl, no_orphans_no_removal _ _ _ rfl⟩

/-- Claim C3. An elevated `main` with the single argument `--all`: the calls
and returns of cleanup functions in the trace are `cleanup_orphans`, then
`cleanup_package_cache`, then `cleanup_journal`, each called only after the
one before returned 0, nothing called after the first return of a non-zero
value (which is the last event of the run), and the exit status is 0 when all
three returned 0 and 1 otherwise.  `main` returns whenever no orphan query
overflows the buffer. -/
theorem all_runs_three_in_order (env : Env) (p : String) (h : env.geteuid = 0) :
    (∀ s t, main env [p, "--all"] = some (s, t) →
      (schedule t = [Event.call .orphans, Event.ret .orphans 1] ∧
        t.getLast? = some (Event.ret .orphans 1) ∧ s = 1) ∨
      (schedule t = [Event.call .orphans, Event.ret .orphans 0,
          Event.call .cache, Event.ret .cache 1] ∧
        t.getLast? = some (Event.ret .cache 1) ∧ s = 1) ∨
      (schedule t = [Event.call .orphans, Event.ret .orphans 0,
          Event.call .cache, Event.ret .cache 0,
          Event.call .journal, Event.ret .journal 1] ∧
        t.getLast? = some (Event.ret .journal 1) ∧ s = 1) ∨
      (schedule t = [Event.call .orphans, Event.ret .orphans 0,
          Event.call .cache, Event.ret .cache 0,
          Event.call .journal, Event.ret .journal 0] ∧
        t.getLast? = some (Event.ret .journal 0) ∧ s = 0)) ∧
    (env.bounded → ∃ s t, main env [p, "--all"] = some (s, t)) := by
  refine ⟨?_, fun hb => main_isSome env hb _⟩
  intro s t hm
  have hrun := main_run env h p "--all" [] s t hm
  have hacts : flagActions "--all" = [.orphans, .cache, .journal] := by decide
  rcases Run.cons_inv hrun with ⟨hh, _, _⟩ | ⟨hk, _, _⟩ | ⟨_, hs, hfail⟩ |
    ⟨_, e1, e2, he, hok, hrest⟩
  · exact absurd hh (by decide)
  · exact absurd hk (by decide)
  · rw [hacts] at hfail
    obtain ⟨done, a, more, evs0, b, hsplit, hok, hq, rfl⟩ := hfail
    have hsched : schedule (evs0 ++ (Event.call a :: b ++ [Event.ret a 1])) =
        (done.flatMap fun a => [Event.call a, Event.ret a 0]) ++
          [Event.call a, Event.ret a 1] := by
      rw [schedule_append, okRun_schedule hok, List.cons_append, schedule_cons_call,
        schedule_append, hq.schedule_eq]
      rfl
    have hlast : (evs0 ++ (Event.call a :: b ++ [Event.ret a 1])).getLast? =
        some (Event.ret a 1) := by
      rw [← List.append_assoc, List.getLast?_append]
      rfl
    rw [hsched, hlast]
    rcases done with _ | ⟨d1, _ | ⟨d2, _ | ⟨d3, done⟩⟩⟩
    · simp only [List.nil_append, List.cons.injEq] at hsplit
      obtain ⟨rfl, _⟩ := hsplit
      exact Or.inl ⟨rfl, rfl, hs⟩
    · simp only [List.cons_append, List.nil_append, List.cons.injEq] at hsplit
      obtain ⟨rfl, rfl, _⟩ := hsplit
      exact Or.inr (Or.inl ⟨rfl, rfl, hs⟩)
    · simp only [List.cons_append, List.nil_append, List.cons.injEq] at hsplit
      obtain ⟨rfl, rfl, rfl, _⟩ := hsplit
      exact Or.inr (Or.inr (Or.inl ⟨rfl, rfl, hs⟩))
    · simp at hsplit
  · obtain ⟨rfl, rfl⟩ := Run.nil_inv hrest
    subst he
    rw [hacts] at hok
    cases hok with
    | cons _ hq1 _ hok2 =>
      cases hok2 with
      | cons _ hq2 _ hok3 =>
        cases hok3 with
        | cons _ hq3 _ hok4 =>
          cases hok4
          refine Or.inr (Or.inr (Or.inr ⟨?_, ?_, rfl⟩))
          · simp [schedule_append, schedule_cons_call, schedule_cons_ret,
              hq1.schedule_eq, hq2.schedule_eq, hq3.schedule_eq]
            rfl
          · simp only [List.append_nil, ← List.append_assoc, List.getLast?_append]
            rfl

theorem all_runs_three_in_order_witness :
    (constEnv 0 "" 0 1).geteuid = 0 ∧
    ∃ s t, main (constEnv 0 "" 0 1) ["system-cleanup", "--all"] = some (s, t) ∧
      ((schedule t = [Event.call .orphans, Event.ret .orphans 1] ∧
        t.getLast? = some (Event.ret .orphans 1) ∧ s = 1) ∨
      (schedule t = [Event.call .orphans, Event.ret .orphans 0,
          Event.call .cache, Event.ret .cache 1] ∧
        t.getLast? = some (Event.ret .cache 1) ∧ s = 1) ∨
      (schedule t = [Event.call .orphans, Event.ret .orphans 0,
          Event.call .cache, Event.ret .cache 0,
          Event.call .journal, Event.ret .journal 1] ∧
        t.getLast? = some (Event.ret .journal 1) ∧ s = 1) ∨
      (schedule t = [Event.call .orphans, Event.ret .orphans 0,
          Event.call .cache, Event.ret .cache 0,
          Event.call .journal, Event.ret .journal 0] ∧
        t.getLast? = some (Event.ret .journal 0) ∧ s = 0)) :=
  ⟨rfl, 1,
    [Event.call .orphans, Event.stdout "Cleaning up orphaned packages...\n",
     Event.popen "pacman -Qtdq" true, Event.pclose 0,
     Event.stdout "No orphaned packages found\n", Event.ret .orphans 0,
     Event.call .cache, Event.stdout "Cleaning package cache...\n",
     Event.system "sudo paccache -rk1" 1,
     Event.stderr "Failed to clean package cache\n", Event.ret .cache 1],
    by decide,
    (all_runs_three_in_order (constEnv 0 "" 0 1) "system-cleanup" rfl).1 1 _ (by decide)⟩

/-- Claim C4. Fail-fast: in every elevated run, a cleanup function that
returns a non-zero value returns 1, `main` then returns 1, and the return of
that function is the last event of the run: no command is run and no later
flag is processed after it, and every earlier return was 0.  `main` returns
whenever no orphan query overflows the buffer. -/
theorem fail_fast (env : Env) (p : String) (args : List String) (h : env.geteuid = 0) :
    (∀ s t, main env (p :: args) = some (s, t) →
      ∀ a r, Event.ret a r ∈ t → r ≠ 0 →
        r = 1 ∧ s = 1 ∧ ∃ pre, t = pre ++ [Event.ret a r] ∧
          ∀ b r1, Event.ret b r1 ∈ pre → r1 = 0) ∧
    (env.bounded → ∃ s t, main env (p :: args) = some (s, t)) := by
  refine ⟨?_, fun hb => main_isSome env hb _⟩
  intro s t hm a r hmem hr
  cases args with
  | nil =>
    have := main_no_args env h [p] (by simp)
    rw [this] at hm
    simp only [Option.some.injEq, Prod.mk.injEq] at hm
    obtain ⟨_, rfl⟩ := hm
    exact absurd hmem (ret_not_mem_print_usage [] (by simp) a r)
  | cons arg rest =>
    have hrun := main_run env h p arg rest s t hm
    rcases run_failfast hrun with hz | ⟨hs, pre, a0, rfl, hpre⟩
    · exact absurd (hz a r hmem) hr
    · rcases List.mem_append.mp hmem with hm1 | hm1
      · exact absurd (hpre a r hm1) hr
      · simp only [List.mem_singleton, Event.ret.injEq] at hm1
        obtain ⟨rfl, rfl⟩ := hm1
        exact ⟨rfl, hs, pre, rfl, hpre⟩

theorem fail_fast_witness :
    (constEnv 0 "" 0 256).geteuid = 0 ∧
    main (constEnv 0 "" 0 256) ["system-cleanup", "--journal", "--cache"] = some (1,
      [Event.call .journal, Event.stdout "Cleaning system journal...\n",
       Event.system "sudo journalctl --vacuum-size=100M" 256,
       Event.stderr "Failed to clean system journal\n", Event.ret .journal 1]) ∧
    ((1 : Int) = 1 ∧ (1 : Int) = 1 ∧ ∃ pre,
      [Event.call .journal, Event.stdout "Cleaning system journal...\n",
       Event.system "sudo journalctl --vacuum-size=100M" 256,
       Event.stderr "Failed to clean system journal\n", Event.ret .journal 1]
        = pre ++ [Event.ret .journal 1] ∧
      ∀ b r1, Event.ret b r1 ∈ pre → r1 = 0) :=
  ⟨rfl, by decide,
    (fail_fast (constEnv 0 "" 0 256) "system-cleanup" ["--journal", "--cache"] rfl).1
      1 _ (by decide) .journal 1 (by decide) (by decide)⟩

/-- Claim C9. An elevated `main` whose arguments are one or more of `--clean`,
`--cache`, `--journal`, `--all`, in a run where every cleanup function called
returns 0: the functions called are the concatenation, left to right, of the
per-flag lists (`--clean`: orphans; `--cache`: cache, which runs
`sudo paccache -rk1`; `--journal`: journal, which runs
`sudo journalctl --vacuum-size=100M`; `--all`: orphans, cache, journal), and
`main` returns 0.  With the one argument `--journal` and a vacuum tool that
returns 0, `main` runs only the journal vacuum, prints its start and success
messages, and returns 0.  `main` returns whenever no orphan query overflows
the buffer. -/
theorem flags_run_left_to_right (env : Env) (p : String) (args : List String)
    (h : env.geteuid = 0) (hne : args ≠ []) (hflags : ∀ x ∈ args, isActionFlag x) :
    (∀ s t, main env (p :: args) = some (s, t) →
      (∀ a r, Event.ret a r ∈ t → r = 0) →
      calls t = args.flatMap flagActions ∧ s = 0) ∧
    (env.bounded → ∃ s t, main env (p :: args) = some (s, t)) ∧
    (flagActions "--clean" = [.orphans] ∧ flagActions "--cache" = [.cache] ∧
      flagActions "--journal" = [.journal] ∧
      flagActions "--all" = [.orphans, .cache, .journal]) ∧
    (∀ t r t1, cleanup_package_cache env t = some (r, t1) →
      ∃ evs, t1 = t ++ evs ∧ commands evs = ["sudo paccache -rk1"]) ∧
    (∀ t r t1, cleanup_journal env t = some (r, t1) →
      ∃ evs, t1 = t ++ evs ∧ commands evs = ["sudo journalctl --vacuum-size=100M"]) ∧
    (env.system [Event.call .journal, Event.stdout "Cleaning system journal...\n"]
        "sudo journalctl --vacuum-size=100M" = 0 →
      main env [p, "--journal"] = some (0,
        [Event.call .journal, Event.stdout "Cleaning system journal...\n",
         Event.system "sudo journalctl --vacuum-size=100M" 0,
         Event.stdout "System journal cleaned successfully\n",
         Event.ret .journal 0])) := by
  refine ⟨?_, fun hb => main_isSome env hb _, by decide, ?_, ?_, ?_⟩
  · intro s t hm hz
    cases args with
    | nil => exact absurd rfl hne
    | cons arg rest => exact run_all_ok (main_run env h p arg rest s t hm) hflags hz
  · intro t r t1 hc
    unfold cleanup_package_cache at hc
    simp only at hc
    split at hc <;>
    · simp only [Option.some.injEq, Prod.mk.injEq, List.append_assoc] at hc
      obtain ⟨_, rfl⟩ := hc
      exact ⟨_, rfl, rfl⟩
  · intro t r t1 hc
    unfold cleanup_journal at hc
    simp only at hc
    split at hc <;>
    · simp only [Option.some.injEq, Prod.mk.injEq, List.append_assoc] at hc
      obtain ⟨_, rfl⟩ := hc
      exact ⟨_, rfl, rfl⟩
  · intro hsys
    rw [main_eq_loop env h p ["--journal"] (by simp)]
    simp [main_loop, orReturn1, invoke, cleanup_journal, hsys]

theorem flags_run_left_to_right_witness :
    (constEnv 0 "" 0 0).geteuid = 0 ∧ ["--journal", "--cache"] ≠ [] ∧
    (∀ x ∈ ["--journal", "--cache"], isActionFlag x) ∧
    main (constEnv 0 "" 0 0) ["system-cleanup", "--journal", "--cache"] = some (0,
      [Event.call .journal, Event.stdout "Cleaning system journal...\n",
       Event.system "sudo journalctl --vacuum-size=100M" 0,
       Event.stdout "System journal cleaned successfully\n", Event.ret .journal 0,
       Event.call .cache, Event.stdout "Cleaning package cache...\n",
       Event.system "sudo paccache -rk1" 0,
       Event.stdout "Package cache cleaned successfully\n", Event.ret .cache 0]) ∧
    (calls
      [Event.call .journal, Event.stdout "Cleaning system journal...\n",
       Event.system "sudo journalctl --vacuum-size=100M" 0,
       Event.stdout "System journal cleaned successfully\n", Event.ret .journal 0,
       Event.call .cache, Event.stdout "Cleaning package cache...\n",
       Event.system "sudo paccache -rk1" 0,
       Event.stdout "Package cache cleaned successfully\n", Event.ret .cache 0]
      = ["--journal", "--cache"].flatMap flagActions ∧ (0 : Int) = 0) :=
  ⟨rfl, by decide, by decide, by decide,
    (flags_run_left_to_right (constEnv 0 "" 0 0) "system-cleanup" ["--journal", "--cache"]
      rfl (by decide) (by decide)).1 0 _ (by decide)
      (by simp only [List.mem_cons, Event.ret.injEq, reduceCtorEq, false_or,
            List.not_mem_nil, or_false]
          rintro a r (⟨_, rfl⟩ | ⟨_, rfl⟩) <;> rfl)⟩

/-- Claim C2, as stated, fails: with `--cache` before `--help` and a cache
tool that fails, the elevated `main` runs the cache tool, returns 1 and never
prints the usage text. -/
theorem help_after_failing_flag :
    (constEnv 0 "" 0 1).geteuid = 0 ∧ "--help" ∈ ["--cache", "--help"] ∧
    main (constEnv 0 "" 0 1) ["system-cleanup", "--cache", "--help"] = some (1,
      [Event.call .cache, Event.stdout "Cleaning package cache...\n",
       Event.system "sudo paccache -rk1" 1,
       Event.stderr "Failed to clean package cache\n", Event.ret .cache 1]) ∧
    commands
      [Event.call .cache, Event.stdout "Cleaning package cache...\n",
       Event.system "sudo paccache -rk1" 1,
       Event.stderr "Failed to clean package cache\n", Event.ret .cache 1]
      = ["sudo paccache -rk1"] := by
  decide

/-- Claim C2, amended. In an elevated run whose arguments contain `--help`,
the arguments after `--help` are never processed: the run is the same as if
the list ended at that `--help`.  The flags before it are processed first:
when `--help` is the first argument `main` prints the usage text, returns 0
and runs no command; when the arguments before it are action flags whose
cleanup functions all return 0, `main` calls exactly those functions, then
prints the usage text and returns 0.  `main` returns whenever no orphan query
overflows the buffer. -/
theorem help_short_circuits_later_flags (env : Env) (p : String) (pre post : List String)
    (h : env.geteuid = 0) :
    main env (p :: (pre ++ "--help" :: post)) = main env (p :: (pre ++ ["--help"])) ∧
    (pre = [] → main env (p :: (pre ++ "--help" :: post)) = some (0, print_usage []) ∧
      commands (print_usage []) = []) ∧
    (∀ s t, main env (p :: (pre ++ "--help" :: post)) = some (s, t) →
      (∀ x ∈ pre, isActionFlag x) → (∀ a r, Event.ret a r ∈ t → r = 0) →
      s = 0 ∧ ∃ t0, t = print_usage t0 ∧ calls t0 = pre.flatMap flagActions) ∧
    (env.bounded → ∃ s t, main env (p :: (pre ++ "--help" :: post)) = some (s, t)) := by
  have hloop : main env (p :: (pre ++ "--help" :: post)) =
      main_loop env (pre ++ "--help" :: post) [] := main_eq_loop env h p _ (by simp)
  refine ⟨?_, ?_, ?_, fun hb => main_isSome env hb _⟩
  · rw [hloop, main_eq_loop env h p _ (by simp), main_loop_help_cut]
  · rintro rfl
    refine ⟨?_, rfl⟩
    rw [hloop]
    simp [main_loop]
  · intro s t hm hflags hz
    rw [hloop] at hm
    obtain ⟨evs, rfl, hrun⟩ := main_loop_run env _ _ _ _ hm
    exact run_help pre post s _ hrun hflags hz

theorem help_short_circuits_later_flags_witness :
    (constEnv 0 "" 0 0).geteuid = 0 ∧
    (main (constEnv 0 "" 0 0) ("system-cleanup" :: ([] ++ "--help" :: ["--cache", "--bogus"]))
      = some (0, print_usage []) ∧ commands (print_usage []) = []) ∧
    main (constEnv 0 "" 0 0) ("system-cleanup" :: (["--cache"] ++ "--help" :: ["--journal"]))
      = main (constEnv 0 "" 0 0) ("system-cleanup" :: (["--cache"] ++ ["--help"])) ∧
    main (constEnv 0 "" 0 0) ("system-cleanup" :: (["--cache"] ++ "--help" :: ["--journal"]))
      = some (0,
      [Event.call .cache, Event.stdout "Cleaning package cache...\n",
       Event.system "sudo paccache -rk1" 0,
       Event.stdout "Package cache cleaned successfully\n", Event.ret .cache 0,
       Event.stdout "Usage: system-cleanup [OPTION]\n",
       Event.stdout "Options:\n",
       Event.stdout "  --clean         Remove orphaned packages\n",
       Event.stdout "  --cache         Clean package cache\n",
       Event.stdout "  --journal       Clean system journal\n",
       Event.stdout "  --all          Perform all cleanup operations\n",
       Event.stdout "  --help         Display this help message\n"]) ∧
    ((0 : Int) = 0 ∧ ∃ t0,
      [Event.call .cache, Event.stdout "Cleaning package cache...\n",
       Event.system "sudo paccache -rk1" 0,
       Event.stdout "Package cache cleaned successfully\n", Event.ret .cache 0,
       Event.stdout "Usage: system-cleanup [OPTION]\n",
       Event.stdout "Options:\n",
       Event.stdout "  --clean         Remove orphaned packages\n",
       Event.stdout "  --cache         Clean package cache\n",
       Event.stdout "  --journal       Clean system journal\n",
       Event.stdout "  --all          Perform all cleanup operations\n",
       Event.stdout "  --help         Display this help message\n"] = print_usage t0 ∧
      calls t0 = ["--cache"].flatMap flagActions) ∧
    ∃ s t, main (constEnv 0 "" 0 0)
      ("system-cleanup" :: (["--cache"] ++ "--help" :: ["--journal"])) = some (s, t) :=
  ⟨rfl,
    (help_short_circuits_later_flags (constEnv 0 "" 0 0) "system-cleanup" []
      ["--cache", "--bogus"] rfl).2.1 rfl,
    (help_short_circuits_later_flags (constEnv 0 "" 0 0) "system-cleanup" ["--cache"]
      ["--journal"] rfl).1,
    by decide,
    (help_short_circuits_later_flags (constEnv 0 "" 0 0) "system-cleanup" ["--cache"]
      ["--journal"] rfl).2.2.1 0 _ (by decide) (by decide)
      (by simp only [List.mem_cons, Event.ret.injEq, reduceCtorEq, false_or,
            List.not_mem_nil, or_false]
          rintro a r ⟨_, rfl⟩
          rfl),
    (help_short_circuits_later_flags (constEnv 0 "" 0 0) "system-cleanup" ["--cache"]
      ["--journal"] rfl).2.2.2
      (fun _ _ _ _ hp => by
        simp only [constEnv, Option.some.injEq, Prod.mk.injEq] at hp
        obtain ⟨rfl, _⟩ := hp
        decide)⟩

/-- Claim C5, as stated, fails: with `--help` before an unknown string the
elevated `main` returns 0. -/
theorem unknown_after_help_exits_zero :
    (constEnv 0 "" 0 0).geteuid = 0 ∧ ¬ isKnownFlag "--bogus" ∧
    main (constEnv 0 "" 0 0) ["system-cleanup", "--help", "--bogus"] =
      some (0, print_usage []) := by
  decide

/-- Claim C5, amended. In an elevated run whose arguments contain a string
that is none of `--clean`, `--cache`, `--journal`, `--all`, `--help`: the
cleanup functions called are a prefix of those of the flags before that
string, so no function of a flag after it is called; and `main` returns 1
when no `--help` stands before that string.  `main` returns whenever no
orphan query overflows the buffer. -/
theorem unknown_flag_stops (env : Env) (p : String) (pre : List String) (u : String)
    (post : List String) (h : env.geteuid = 0) (hu : ¬ isKnownFlag u) :
    (∀ s t, main env (p :: (pre ++ u :: post)) = some (s, t) →
      calls t <+: pre.flatMap flagActions ∧ ("--help" ∉ pre → s = 1)) ∧
    (env.bounded → ∃ s t, main env (p :: (pre ++ u :: post)) = some (s, t)) := by
  refine ⟨?_, fun hb => main_isSome env hb _⟩
  intro s t hm
  rw [main_eq_loop env h p _ (by simp)] at hm
  obtain ⟨evs, rfl, hrun⟩ := main_loop_run env _ _ _ _ hm
  exact run_unknown pre u post hu s _ hrun

theorem unknown_flag_stops_witness :
    (constEnv 0 "" 0 0).geteuid = 0 ∧ ¬ isKnownFlag "--bogus" ∧
    main (constEnv 0 "" 0 0) ("system-cleanup" :: (["--cache"] ++ "--bogus" :: ["--journal"]))
      = some (1,
      [Event.call .cache, Event.stdout "Cleaning package cache...\n",
       Event.system "sudo paccache -rk1" 0,
       Event.stdout "Package cache cleaned successfully\n", Event.ret .cache 0,
       Event.stderr "Unknown option: --bogus\n",
       Event.stdout "Usage: system-cleanup [OPTION]\n",
       Event.stdout "Options:\n",
       Event.stdout "  --clean         Remove orphaned packages\n",
       Event.stdout "  --cache         Clean package cache\n",
       Event.stdout "  --journal       Clean system journal\n",
       Event.stdout "  --all          Perform all cleanup operations\n",
       Event.stdout "  --help         Display this help message\n"]) ∧
    (calls
      [Event.call .cache, Event.stdout "Cleaning package cache...\n",
       Event.system "sudo paccache -rk1" 0,
       Event.stdout "Package cache cleaned successfully\n", Event.ret .cache 0,
       Event.stderr "Unknown option: --bogus\n",
       Event.stdout "Usage: system-cleanup [OPTION]\n",
       Event.stdout "Options:\n",
       Event.stdout "  --clean         Remove orphaned packages\n",
       Event.stdout "  --cache         Clean package cache\n",
       Event.stdout "  --journal       Clean system journal\n",
       Event.stdout "  --all          Perform all cleanup operations\n",
       Event.stdout "  --help         Display this help message\n"]
      <+: ["--cache"].flatMap flagActions ∧ ("--help" ∉ ["--cache"] → (1 : Int) = 1)) :=
  ⟨rfl, by decide, by decide,
    (unknown_flag_stops (constEnv 0 "" 0 0) "system-cleanup" ["--cache"] "--bogus"
      ["--journal"] rfl (by decide)).1 1 _ (by decide)⟩

/-- Claim C8, as stated, fails: an orphan query that runs, writes nothing and
ends with a non-zero status (256, exit code 1) is not an error for the
program: `cleanup_orphans` returns 0 and the elevated `main` returns 0. -/
theorem orphan_query_status_ignored :
    (constEnv 0 "" 256 0).geteuid = 0 ∧
    main (constEnv 0 "" 256 0) ["system-cleanup", "--clean"] = some (0,
      [Event.call .orphans, Event.stdout "Cleaning up orphaned packages...\n",
       Event.popen "pacman -Qtdq" true, Event.pclose 256,
       Event.stdout "No orphaned packages found\n", Event.ret .orphans 0]) := by
  decide

/-- Claim C8, amended. A tool failure the program looks at is terminal:
when `popen` cannot start the orphan query (returns `NULL`), or `system`
returns a non-zero value for the removal command, the cache-pruning tool or
the journal-vacuum tool, the cleanup function in which it happened returns 1,
and the elevated `main` returns 1 with that return as the last event of the
run.  The status the orphan query ends with is not looked at.  `main` returns
whenever no orphan query overflows the buffer. -/
theorem tool_failure_is_terminal (env : Env) (p : String) (args : List String)
    (h : env.geteuid = 0) :
    (∀ f ∈ [cleanup_orphans env, cleanup_package_cache env, cleanup_journal env],
      ∀ t r t1, f t = some (r, t1) →
        ∃ evs, t1 = t ++ evs ∧ ((∃ e ∈ evs, e.toolFailed = true) → r = 1)) ∧
    (∀ s t, main env (p :: args) = some (s, t) → (∃ e ∈ t, e.toolFailed = true) →
      s = 1 ∧ ∃ pre a, t = pre ++ [Event.ret a 1]) ∧
    (env.bounded → ∃ s t, main env (p :: args) = some (s, t)) := by
  refine ⟨?_, ?_, fun hb => main_isSome env hb _⟩
  · intro f hf t r t1 hres
    have hbody : BodyOK t r t1 := by
      simp only [List.mem_cons, List.mem_singleton, List.not_mem_nil, or_false] at hf
      rcases hf with rfl | rfl | rfl
      · exact cleanup_orphans_ok env t r t1 hres
      · exact cleanup_package_cache_ok env t r t1 hres
      · exact cleanup_journal_ok env t r t1 hres
    obtain ⟨evs, rfl, _, h01, hnf⟩ := hbody
    refine ⟨evs, rfl, ?_⟩
    rintro ⟨e, he, hfe⟩
    rcases h01 with h0 | h1
    · have := hnf h0 e he
      rw [this] at hfe
      exact absurd hfe (by decide)
    · exact h1
  · intro s t hm hfail
    cases args with
    | nil =>
      have := main_no_args env h [p] (by simp)
      rw [this] at hm
      simp only [Option.some.injEq, Prod.mk.injEq] at hm
      obtain ⟨_, rfl⟩ := hm
      obtain ⟨e, he, hfe⟩ := hfail
      simp only [print_usage, List.nil_append, List.mem_cons, List.mem_singleton,
        List.not_mem_nil, or_false] at he
      rcases he with rfl | rfl | rfl | rfl | rfl | rfl | rfl <;> exact absurd hfe (by decide)
    | cons arg rest => exact run_toolFailed (main_run env h p arg rest s t hm) hfail

theorem tool_failure_is_terminal_witness :
    (constEnv 0 "" 0 256).geteuid = 0 ∧
    main (constEnv 0 "" 0 256) ["system-cleanup", "--cache", "--journal"] = some (1,
      [Event.call .cache, Event.stdout "Cleaning package cache...\n",
       Event.system "sudo paccache -rk1" 256,
       Event.stderr "Failed to clean package cache\n", Event.ret .cache 1]) ∧
    ((1 : Int) = 1 ∧ ∃ pre a,
      [Event.call .cache, Event.stdout "Cleaning package cache...\n",
       Event.system "sudo paccache -rk1" 256,
       Event.stderr "Failed to clean package cache\n", Event.ret .cache 1]
      = pre ++ [Event.ret a 1]) :=
  ⟨rfl, by decide,
    (tool_failure_is_terminal (constEnv 0 "" 0 256) "system-cleanup"
      ["--cache", "--journal"] rfl).2.1 1 _ (by decide)
      ⟨Event.system "sudo paccache -rk1" 256, by decide, by decide⟩⟩

/-- Claim C7 at a query output of 4067 bytes (83 names of 48 bytes, each with
its newline): `cleanup_orphans` runs one removal command, but `snprintf`
into `char command[4096]` cuts the text after 4095 bytes, so the command ends
in ` --noconfir` and is not the text `sudo pacman -Rns `, the names,
` --noconfirm` of the claim. -/
theorem removal_command_truncated :
    cleanup_orphans (constEnv 0 (String.mk orphanNames) 0 0) [] = some (0,
      [Event.stdout "Cleaning up orphaned packages...\n",
       Event.popen "pacman -Qtdq" true, Event.pclose 0,
       Event.system
         (String.mk ("sudo pacman -Rns ".data ++ orphanNames ++ " --noconfir".data)) 0,
       Event.stdout "Orphaned packages removed successfully\n"]) ∧
    String.mk ("sudo pacman -Rns ".data ++ orphanNames ++ " --noconfir".data) ≠
      String.mk ("sudo pacman -Rns ".data ++ orphanNames ++ " --noconfirm".data) :=
  ⟨cleanup_orphans_cut orphanNames orphanNames_length orphanNames_noNul,
    cut_command_ne orphanNames⟩

end Hellman
